import Mathlib

/-!
Verification of the trade-execution backend core against its specification.

The development shallowly embeds the three specified subsystems of the
JavaScript source (single Express server file):

* `StatusCodec` — `mapStatusToInt` / `mapStatusToString`;
* `AttestationCodec` — `generateSecurityHash` / `verifySecurityHash`,
  including a faithful model of `JSON.stringify(value, replacerArray)`
  semantics (an array replacer acts as a property whitelist at *every*
  nesting level, and properties are emitted in replacer-array order);
* `MilestoneEngine` — the five guarded milestone action endpoints
  (`confirm-order`, `ready-to-ship`, `goods-shipped`, `goods-arrived`,
  `goods-received`) over a relational state with `BEGIN`/`COMMIT`/`ROLLBACK`
  transaction semantics.

Timestamps (`NOW()`, `createdat`, …) and auto-generated serial ids are not
modelled: no claim depends on them.  Machine integers of the source are
JavaScript numbers; all values the claims touch are small integers, modelled
as `Int`/`Nat`.
-/

namespace Spec2Proof

/-! ### StatusCodec (source: `mapStatusToInt`, `mapStatusToString`) -/

/-- A JavaScript value reaching `mapStatusToInt`: a number, a string, or
anything else (the source checks `typeof` and defaults otherwise). -/
inductive JsStatusInput where
  | num (n : Int)
  | str (s : String)
  | other
deriving DecidableEq, Repr

/-- Source `mapStatusToInt`: numeric input passes through; a recognized label
maps to its code via the literal `statusMap`; `statusMap[s] || 1` defaults to
`1` for unrecognized labels (all mapped codes are truthy); non-number,
non-string input returns `1`. -/
def mapStatusToInt : JsStatusInput → Int
  | .num n => n
  | .str s =>
      if s = "Pending" then 1
      else if s = "Confirmed" then 2
      else if s = "In Transit" then 3
      else if s = "Delivered" then 4
      else if s = "Cancelled" then 5
      else 1
  | .other => 1

/-- Source `mapStatusToString`: the literal inverse `statusMap`, with
`statusMap[n] || 'Pending'` defaulting to `"Pending"` off the table. -/
def mapStatusToString (statusInt : Int) : String :=
  if statusInt = 1 then "Pending"
  else if statusInt = 2 then "Confirmed"
  else if statusInt = 3 then "In Transit"
  else if statusInt = 4 then "Delivered"
  else if statusInt = 5 then "Cancelled"
  else "Pending"

/-- The five defined status labels, in code order `1..5`. -/
def definedStatusLabels : List String :=
  ["Pending", "Confirmed", "In Transit", "Delivered", "Cancelled"]

/-! ### AttestationCodec: JavaScript values and `JSON.stringify` -/

/-- A JSON-representable JavaScript value.  Object fields are kept in
insertion order, as JavaScript objects do for string keys.  Numbers are
modelled as `Int` (every number in the claims is a small integer, which
`JSON.stringify` prints without a decimal point). -/
inductive JsVal where
  | null
  | bool (b : Bool)
  | num (n : Int)
  | str (s : String)
  | arr (elems : List JsVal)
  | obj (fields : List (String × JsVal))
deriving Repr

/-- One hexadecimal digit, lower case, for `\uXXXX` escapes. -/
def hexDigit (n : Nat) : String :=
  if n = 0 then "0" else if n = 1 then "1" else if n = 2 then "2"
  else if n = 3 then "3" else if n = 4 then "4" else if n = 5 then "5"
  else if n = 6 then "6" else if n = 7 then "7" else if n = 8 then "8"
  else if n = 9 then "9" else if n = 10 then "a" else if n = 11 then "b"
  else if n = 12 then "c" else if n = 13 then "d" else if n = 14 then "e"
  else "f"

/-- `JSON.stringify` escaping of one character inside a string literal. -/
def jsonEscapeChar (c : Char) : String :=
  if c = '"' then "\\\""
  else if c = '\\' then "\\\\"
  else if c = '\x08' then "\\b"
  else if c = '\x0c' then "\\f"
  else if c = '\n' then "\\n"
  else if c = '\r' then "\\r"
  else if c = '\t' then "\\t"
  else if c.toNat < 32 then "\\u00" ++ hexDigit (c.toNat / 16) ++ hexDigit (c.toNat % 16)
  else String.singleton c

/-- `JSON.stringify` quoting of a string value (or property name). -/
def jsonQuote (s : String) : String :=
  "\"" ++ String.join (s.toList.map jsonEscapeChar) ++ "\""

/-- Emit the serialized properties of an object, ECMA-262
`SerializeJSONObject` with a `PropertyList`: iterate the replacer array
`props` in order and keep a property exactly when the object has that key
(first binding wins, as property lookup does). -/
def selectProps (props : List String) (serialized : List (String × String)) : List String :=
  props.filterMap (fun k => (serialized.lookup k).map (fun s => jsonQuote k ++ ":" ++ s))

mutual

/-- ECMA-262 `JSON.stringify(v, props)` where `props` is the replacer
array (a `PropertyList` of string keys).  The whitelist applies to the keys
of **every** object at every nesting level, and surviving properties are
emitted in `props` order; arrays are serialized index by index regardless of
`props`.  No spacing argument: separators are `,` and `:`. -/
def serializeVal (props : List String) : JsVal → String
  | .null => "null"
  | .bool b => if b then "true" else "false"
  | .num n => toString n
  | .str s => jsonQuote s
  | .arr xs => "[" ++ String.intercalate "," (serializeElems props xs) ++ "]"
  | .obj fs => "\x7b" ++ String.intercalate "," (selectProps props (serializeFields props fs)) ++ "\x7d"

/-- Serialize each array element. -/
def serializeElems (props : List String) : List JsVal → List String
  | [] => []
  | v :: vs => serializeVal props v :: serializeElems props vs

/-- Serialize the value of each field, keeping the key alongside. -/
def serializeFields (props : List String) : List (String × JsVal) → List (String × String)
  | [] => []
  | (k, v) :: fs => (k, serializeVal props v) :: serializeFields props fs

end

/-- `Object.keys(v)` for the values that reach it in the source: field names
in insertion order for an object, index strings for an array, no own
enumerable properties otherwise. -/
def jsTopKeys : JsVal → List String
  | .obj fs => fs.map Prod.fst
  | .arr xs => (List.range xs.length).map toString
  | _ => []

/-- Lexicographic comparison of character lists, by code point. -/
def charListLe : List Char → List Char → Bool
  | [], _ => true
  | _ :: _, [] => false
  | a :: as, b :: bs =>
      if a < b then true else if b < a then false else charListLe as bs

/-- The default `Array.prototype.sort()` string comparison: lexicographic by
UTF-16 code unit, which coincides with code-point order on the
basic-multilingual-plane keys that occur here. -/
def strLeb (a b : String) : Bool := charListLe a.data b.data

/-- Ordered insertion for the default `Array.prototype.sort()` comparison. -/
def insertSorted (s : String) : List String → List String
  | [] => [s]
  | t :: ts => if strLeb s t then s :: t :: ts else t :: insertSorted s ts

/-- `Array.prototype.sort()` on strings: produces the sorted rearrangement. -/
def sortStrings : List String → List String
  | [] => []
  | s :: ss => insertSorted s (sortStrings ss)

/-- Source `delete cleanData.securityHash` after the shallow copy
`{...packingListData}`: drops the top-level `securityHash` binding of an
object; every payload the source seals or verifies is a plain object. -/
def jsDelete (key : String) : JsVal → JsVal
  | .obj fs => .obj (fs.filter (fun kv => kv.1 ≠ key))
  | v => v

/-- Source `generateSecurityHash` (parameterized by the HMAC primitive):
shallow-copy the payload and delete `securityHash`; build
`JSON.stringify(cleanData, Object.keys(cleanData).sort())`; apply
HMAC-SHA256 with the process secret.  `hmac key msg` stands for Node
`crypto.createHmac('sha256', key).update(msg).digest('hex')`, of which the
claims use only that it is a deterministic function of `(key, msg)`. -/
def generateSecurityHash (hmac : String → String → String) (secretKey : String)
    (packingListData : JsVal) : String :=
  let cleanData := jsDelete "securityHash" packingListData
  let dataString := serializeVal (sortStrings (jsTopKeys cleanData)) cleanData
  hmac secretKey dataString

/-- The canonical byte form `generateSecurityHash` feeds to the digest. -/
def canonicalForm (packingListData : JsVal) : String :=
  let cleanData := jsDelete "securityHash" packingListData
  serializeVal (sortStrings (jsTopKeys cleanData)) cleanData

/-- Property read `packingListData.securityHash` (first binding, objects
only — `undefined` otherwise, modelled as `none`). -/
def jsGet (key : String) : JsVal → Option JsVal
  | .obj fs => fs.lookup key
  | _ => none

/-- JavaScript strict equality `x === s` of a possibly-absent property
against a string. -/
def strictEqStr : Option JsVal → String → Bool
  | some (.str s), t => s == t
  | _, _ => false

/-- Result record of `verifySecurityHash`. -/
structure VerifyOutcome where
  isValid : Bool
  uploadedHash : Option JsVal
  calculatedHash : String
deriving Repr

/-- Source `verifySecurityHash`: read the carried `securityHash`, recompute
the digest with `generateSecurityHash` (which itself strips `securityHash`),
and compare with `===`. -/
def verifySecurityHash (hmac : String → String → String) (secretKey : String)
    (packingListData : JsVal) : VerifyOutcome :=
  let uploadedHash := jsGet "securityHash" packingListData
  let calculatedHash := generateSecurityHash hmac secretKey packingListData
  { isValid := strictEqStr uploadedHash calculatedHash
    uploadedHash := uploadedHash
    calculatedHash := calculatedHash }

/-- Source spread-and-set `{...fields, key: v}`: replace the binding in
place when the key exists, append it otherwise. -/
def setField (key : String) (v : JsVal) : List (String × JsVal) → List (String × JsVal)
  | [] => [(key, v)]
  | (k, w) :: fs => if k = key then (key, v) :: fs else (k, w) :: setField key v fs

/-- The `/api/generate-vpl` attach step: `{...vplData, securityHash}` with
the freshly generated digest. -/
def attachSecurityHash (hmac : String → String → String) (secretKey : String)
    (vplData : JsVal) : JsVal :=
  match vplData with
  | .obj fs => .obj (setField "securityHash" (.str (generateSecurityHash hmac secretKey (.obj fs))) fs)
  | v => v

/-- Source `VPL_SECRET_KEY = process.env.VPL_SECRET_KEY || '...'`: the
compiled-in fallback, taken verbatim from the source. -/
def defaultVplSecret : String := "your-super-secret-vpl-key-change-this-in-production"

/-- The startup computation of `VPL_SECRET_KEY`: `env` is the external
configuration value (absent, or set to a string; `||` also rejects the empty
string, which is falsy). -/
def vplSecretKey (env : Option String) : String :=
  match env with
  | some s => if s = "" then defaultVplSecret else s
  | none => defaultVplSecret

/-! ### MilestoneEngine: relational state -/

/-- The five milestone types of the guarded action endpoints.  The source
stores them as the strings `order_confirmed`, `ready_to_ship`,
`goods_shipped`, `goods_arrived`, `goods_received`; each endpoint both
writes and queries only these five literals, so the enumeration is used
directly as the column value. -/
inductive MilestoneType where
  | orderConfirmed
  | readyToShip
  | goodsShipped
  | goodsArrived
  | goodsReceived
deriving DecidableEq, BEq, Repr

/-- A row of `orders` (the columns the milestone endpoints touch). -/
structure OrderRow where
  orderid : Nat
  orderstatus : String
deriving DecidableEq, BEq, Repr

/-- A row of `poinvoice` (the columns the milestone endpoints touch). -/
structure InvoiceRow where
  invoiceid : Nat
  orderid : Nat
  expectedstockstatus : String
deriving DecidableEq, BEq, Repr

/-- A row of `milestones` (the columns the milestone endpoints touch;
`completeddate`/`createdat`/`updatedat` are `NOW()` timestamps, not
modelled). -/
structure MilestoneRow where
  orderid : Nat
  userid : Nat
  milestonetype : MilestoneType
  status : String
  title : String
  description : String
  completedbyuserid : Nat
deriving DecidableEq, BEq, Repr

/-- A row of `communications` (the columns the milestone endpoints write). -/
structure CommunicationRow where
  orderid : Nat
  userid : Nat
  messagetype : String
  subject : String
  messagebody : String
deriving DecidableEq, BEq, Repr

/-- The stored state the five endpoints read and write. -/
structure DB where
  orders : List OrderRow
  poinvoice : List InvoiceRow
  milestones : List MilestoneRow
  communications : List CommunicationRow
deriving DecidableEq, BEq, Repr

/-- `SELECT COUNT(*) FROM milestones WHERE orderid = $1 AND milestonetype = t`
(any status) — the duplicate check of `confirm-order`. -/
def countMilestoneRows (db : DB) (oid : Nat) (t : MilestoneType) : Nat :=
  (db.milestones.filter (fun r => r.orderid = oid ∧ r.milestonetype = t)).length

/-- `SELECT COUNT(*) ... AND status = 'completed'` — the predecessor checks. -/
def countCompletedRows (db : DB) (oid : Nat) (t : MilestoneType) : Nat :=
  (db.milestones.filter
    (fun r => r.orderid = oid ∧ r.milestonetype = t ∧ r.status = "completed")).length

/-- `COUNT(*) > 0` over completed rows: milestone `t` is completed for the
order. -/
def hasCompleted (db : DB) (oid : Nat) (t : MilestoneType) : Prop :=
  countCompletedRows db oid t ≠ 0

/-- `hasCompleted` is a decidable count comparison. -/
instance (db : DB) (oid : Nat) (t : MilestoneType) : Decidable (hasCompleted db oid t) :=
  inferInstanceAs (Decidable (countCompletedRows db oid t ≠ 0))

/-- `UPDATE orders SET orderstatus = st WHERE orderid = $1`. -/
def updateOrderStatus (db : DB) (oid : Nat) (st : String) : DB :=
  { db with orders := (db.orders.map
      (fun o => if o.orderid = oid then { o with orderstatus := st } else o)) }

/-- `UPDATE poinvoice SET expectedstockstatus = st WHERE orderid = $1`. -/
def updateInvoices (db : DB) (oid : Nat) (st : String) : DB :=
  { db with poinvoice := (db.poinvoice.map
      (fun i => if i.orderid = oid then { i with expectedstockstatus := st } else i)) }

/-- `INSERT INTO milestones ...`. -/
def insertMilestone (db : DB) (row : MilestoneRow) : DB :=
  { db with milestones := db.milestones ++ [row] }

/-- `INSERT INTO communications ...`. -/
def insertCommunication (db : DB) (row : CommunicationRow) : DB :=
  { db with communications := db.communications ++ [row] }

/-- An endpoint response: `200 {success:true, message}` or
`res.status(status).json({error})`. -/
inductive ApiResult where
  | ok (message : String)
  | err (status : Nat) (error : String)
deriving DecidableEq, BEq, Repr

/-- `BEGIN; steps; COMMIT` with the `catch`-block `ROLLBACK`: the statements
between `BEGIN` and `COMMIT` run in order on the connection's uncommitted
view; `failAt = some i` injects a thrown error at the `i`-th statement
(`i` past the end means no statement fails), upon which the transaction is
rolled back and nothing is published (`none`); otherwise `COMMIT` publishes
every step (`some`). -/
def runTransaction (db : DB) (steps : List (DB → DB)) (failAt : Option Nat) : Option DB :=
  match failAt with
  | none => some (steps.foldl (fun d f => f d) db)
  | some i =>
      if i < steps.length then none
      else some (steps.foldl (fun d f => f d) db)

/-- The milestone row inserted by `confirm-order`. -/
def confirmRow (oid uid : Nat) : MilestoneRow :=
  { orderid := oid, userid := uid, milestonetype := .orderConfirmed,
    status := "completed", title := "Order Confirmed",
    description := "Purchase order confirmed by exporter", completedbyuserid := uid }

/-- `POST /api/milestones/confirm-order`: validate `orderid`/`userid`
(JavaScript falsiness: `0` is falsy), reject when any `order_confirmed` row
exists, else atomically insert the completed milestone, set the order status
to `Confirmed`, and append the audit communication. -/
def confirmOrder (db : DB) (orderid userid : Nat) (failAt : Option Nat) : ApiResult × DB :=
  if orderid = 0 ∨ userid = 0 then
    (.err 400 "orderid and userid are required", db)
  else if 0 < countMilestoneRows db orderid .orderConfirmed then
    (.err 400 "Order already confirmed", db)
  else
    match runTransaction db
      [fun d => insertMilestone d (confirmRow orderid userid),
       fun d => updateOrderStatus d orderid "Confirmed",
       fun d => insertCommunication d
         { orderid := orderid, userid := userid, messagetype := "milestone_update",
           subject := "Order Confirmed",
           messagebody := "Purchase order has been confirmed by the exporter. Production can begin." }]
      failAt with
    | some db2 => (.ok "Order confirmed successfully", db2)
    | none => (.err 500 "transaction aborted", db)

/-- The milestone row inserted by `ready-to-ship`. -/
def readyToShipRow (oid uid : Nat) : MilestoneRow :=
  { orderid := oid, userid := uid, milestonetype := .readyToShip,
    status := "completed", title := "Ready to Ship",
    description := "Production complete. Goods prepared and ready for dispatch.",
    completedbyuserid := uid }

/-- `POST /api/milestones/ready-to-ship`: require a completed
`order_confirmed` milestone (no duplicate check of its own type, no
`orderid`/`userid` validation), else atomically set every invoice of the
order to `confirmed`, insert the completed milestone, and append the audit
communication (order status untouched). -/
def readyToShip (db : DB) (orderid userid : Nat) (failAt : Option Nat) : ApiResult × DB :=
  if ¬ hasCompleted db orderid .orderConfirmed then
    (.err 400 "Order must be confirmed before marking as ready to ship", db)
  else
    match runTransaction db
      [fun d => updateInvoices d orderid "confirmed",
       fun d => insertMilestone d (readyToShipRow orderid userid),
       fun d => insertCommunication d
         { orderid := orderid, userid := userid, messagetype := "milestone_update",
           subject := "Goods Ready to Ship",
           messagebody := "Production is complete. All goods are prepared and ready for collection/dispatch." }]
      failAt with
    | some db2 => (.ok "Goods marked as ready to ship", db2)
    | none => (.err 500 "transaction aborted", db)

/-- The milestone row inserted by `goods-shipped`. -/
def goodsShippedRow (oid uid : Nat) : MilestoneRow :=
  { orderid := oid, userid := uid, milestonetype := .goodsShipped,
    status := "completed", title := "Goods Shipped",
    description := "Goods have been dispatched and are now in transit.",
    completedbyuserid := uid }

/-- `POST /api/milestones/goods-shipped`: require a completed
`ready_to_ship` milestone, else atomically set every invoice of the order to
`shipped`, insert the completed milestone, set the order status to
`Shipped`, and append the audit communication. -/
def goodsShipped (db : DB) (orderid userid : Nat) (failAt : Option Nat) : ApiResult × DB :=
  if ¬ hasCompleted db orderid .readyToShip then
    (.err 400 "Goods must be marked as 'Ready to Ship' before shipping", db)
  else
    match runTransaction db
      [fun d => updateInvoices d orderid "shipped",
       fun d => insertMilestone d (goodsShippedRow orderid userid),
       fun d => updateOrderStatus d orderid "Shipped",
       fun d => insertCommunication d
         { orderid := orderid, userid := userid, messagetype := "milestone_update",
           subject := "Goods Shipped",
           messagebody := "Goods have been dispatched from origin and are now in transit to destination." }]
      failAt with
    | some db2 => (.ok "Goods marked as shipped", db2)
    | none => (.err 500 "transaction aborted", db)

/-- The milestone row inserted by `goods-arrived`. -/
def goodsArrivedRow (oid uid : Nat) : MilestoneRow :=
  { orderid := oid, userid := uid, milestonetype := .goodsArrived,
    status := "completed", title := "Goods Arrived",
    description := "Shipment has arrived at destination and is ready for collection.",
    completedbyuserid := uid }

/-- `POST /api/milestones/goods-arrived`: require a completed
`goods_shipped` milestone, else atomically set every invoice of the order to
`arrived`, insert the completed milestone, and append the audit
communication (order status untouched). -/
def goodsArrived (db : DB) (orderid userid : Nat) (failAt : Option Nat) : ApiResult × DB :=
  if ¬ hasCompleted db orderid .goodsShipped then
    (.err 400 "Goods must be shipped before they can arrive", db)
  else
    match runTransaction db
      [fun d => updateInvoices d orderid "arrived",
       fun d => insertMilestone d (goodsArrivedRow orderid userid),
       fun d => insertCommunication d
         { orderid := orderid, userid := userid, messagetype := "milestone_update",
           subject := "Goods Arrived at Destination",
           messagebody := "Shipment has arrived at destination port/facility and is ready for collection or final delivery." }]
      failAt with
    | some db2 => (.ok "Goods marked as arrived", db2)
    | none => (.err 500 "transaction aborted", db)

/-- The milestone row inserted by `goods-received`. -/
def goodsReceivedRow (oid uid : Nat) : MilestoneRow :=
  { orderid := oid, userid := uid, milestonetype := .goodsReceived,
    status := "completed", title := "Goods Received & Verified",
    description := "Final delivery completed and goods verified by importer.",
    completedbyuserid := uid }

/-- `POST /api/milestones/goods-received`: require a completed
`goods_arrived` milestone, else atomically set every invoice of the order to
`completed`, insert the completed milestone, set the order status to
`Completed`, and append the audit communication. -/
def goodsReceived (db : DB) (orderid userid : Nat) (failAt : Option Nat) : ApiResult × DB :=
  if ¬ hasCompleted db orderid .goodsArrived then
    (.err 400 "Goods must arrive before they can be received", db)
  else
    match runTransaction db
      [fun d => updateInvoices d orderid "completed",
       fun d => insertMilestone d (goodsReceivedRow orderid userid),
       fun d => updateOrderStatus d orderid "Completed",
       fun d => insertCommunication d
         { orderid := orderid, userid := userid, messagetype := "milestone_update",
           subject := "Order Complete",
           messagebody := "Goods have been received, verified, and the order is now complete. Thank you for your business!" }]
      failAt with
    | some db2 => (.ok "Goods received and order completed", db2)
    | none => (.err 500 "transaction aborted", db)

/-- Dispatch a milestone action by type: the five guarded endpoints. -/
def recordMilestone (t : MilestoneType) (db : DB) (oid uid : Nat)
    (failAt : Option Nat) : ApiResult × DB :=
  match t with
  | .orderConfirmed => confirmOrder db oid uid failAt
  | .readyToShip => readyToShip db oid uid failAt
  | .goodsShipped => goodsShipped db oid uid failAt
  | .goodsArrived => goodsArrived db oid uid failAt
  | .goodsReceived => goodsReceived db oid uid failAt

/-- The canonical milestone chain, in order. -/
def milestoneChain : List MilestoneType :=
  [.orderConfirmed, .readyToShip, .goodsShipped, .goodsArrived, .goodsReceived]

/-- The transition table: the predecessor each action requires completed. -/
def predecessorOf : MilestoneType → Option MilestoneType
  | .orderConfirmed => none
  | .readyToShip => some .orderConfirmed
  | .goodsShipped => some .readyToShip
  | .goodsArrived => some .goodsShipped
  | .goodsReceived => some .goodsArrived

/-- The `expectedstockstatus` cascade each action applies to the order's
invoices (`none` for `OrderConfirmed`, which touches no invoice). -/
def invoiceCascade : MilestoneType → Option String
  | .orderConfirmed => none
  | .readyToShip => some "confirmed"
  | .goodsShipped => some "shipped"
  | .goodsArrived => some "arrived"
  | .goodsReceived => some "completed"

/-- The `orderstatus` cascade each action applies to the order (`none` for
the two actions that leave order status unchanged). -/
def orderCascade : MilestoneType → Option String
  | .orderConfirmed => some "Confirmed"
  | .readyToShip => none
  | .goodsShipped => some "Shipped"
  | .goodsArrived => none
  | .goodsReceived => some "Completed"

/-- The precondition failure message of each guarded action (the
`OrderConfirmed` entry is its duplicate-conflict message; the other four are
the missing-predecessor messages). -/
def guardFailureMessage : MilestoneType → String
  | .orderConfirmed => "Order already confirmed"
  | .readyToShip => "Order must be confirmed before marking as ready to ship"
  | .goodsShipped => "Goods must be marked as 'Ready to Ship' before shipping"
  | .goodsArrived => "Goods must be shipped before they can arrive"
  | .goodsReceived => "Goods must arrive before they can be received"

/-- The success message of each guarded action. -/
def successMessage : MilestoneType → String
  | .orderConfirmed => "Order confirmed successfully"
  | .readyToShip => "Goods marked as ready to ship"
  | .goodsShipped => "Goods marked as shipped"
  | .goodsArrived => "Goods marked as arrived"
  | .goodsReceived => "Goods received and order completed"

/-- Run a sequence of guarded actions (no injected faults), each given as
`(type, orderid, userid)`. -/
def runActions (db : DB) : List (MilestoneType × Nat × Nat) → DB
  | [] => db
  | (t, oid, uid) :: rest => runActions (recordMilestone t db oid uid none).2 rest

/-- The milestone types completed for an order, listed in chain order. -/
def completedTypes (db : DB) (oid : Nat) : List MilestoneType :=
  milestoneChain.filter (fun t => decide (hasCompleted db oid t))

/-- The invariant maintained by the guarded actions for one order: at most
one `order_confirmed` row, and each completed type's predecessor completed. -/
def milestoneInvariant (db : DB) (oid : Nat) : Prop :=
  countMilestoneRows db oid .orderConfirmed ≤ 1 ∧
  (hasCompleted db oid .readyToShip → hasCompleted db oid .orderConfirmed) ∧
  (hasCompleted db oid .goodsShipped → hasCompleted db oid .readyToShip) ∧
  (hasCompleted db oid .goodsArrived → hasCompleted db oid .goodsShipped) ∧
  (hasCompleted db oid .goodsReceived → hasCompleted db oid .goodsArrived)

/-! ### Structural equality of payloads up to key insertion order -/

mutual

/-- Two JavaScript values are structurally equal up to the order in which
object keys were inserted: identical primitives, element-wise equal arrays,
and objects whose field lists agree pointwise after some permutation. -/
def structEq : JsVal → JsVal → Prop
  | .null, .null => True
  | .bool a, .bool b => a = b
  | .num a, .num b => a = b
  | .str a, .str b => a = b
  | .arr xs, .arr ys => structEqElems xs ys
  | .obj fs, .obj gs => ∃ hs, structEqFields fs hs ∧ hs.Perm gs
  | _, _ => False

/-- Element-wise `structEq` on array contents. -/
def structEqElems : List JsVal → List JsVal → Prop
  | [], [] => True
  | x :: xs, y :: ys => structEq x y ∧ structEqElems xs ys
  | _, _ => False

/-- Pointwise field agreement: same key, `structEq` value, position by
position. -/
def structEqFields : List (String × JsVal) → List (String × JsVal) → Prop
  | [], [] => True
  | (k, v) :: fs, (k2, w) :: gs => k = k2 ∧ structEq v w ∧ structEqFields fs gs
  | _, _ => False

end

/-- No key occurs twice (JavaScript objects cannot hold duplicate keys). -/
def distinctKeys : List String → Bool
  | [] => true
  | k :: ks => !ks.contains k && distinctKeys ks

mutual

/-- A value is a faithful image of a JavaScript value: object key lists are
duplicate-free at every nesting level. -/
def wfVal : JsVal → Bool
  | .null => true
  | .bool _ => true
  | .num _ => true
  | .str _ => true
  | .arr xs => wfElems xs
  | .obj fs => distinctKeys (fs.map Prod.fst) && wfFields fs

/-- `wfVal` on every array element. -/
def wfElems : List JsVal → Bool
  | [] => true
  | x :: xs => wfVal x && wfElems xs

/-- `wfVal` on every field value. -/
def wfFields : List (String × JsVal) → Bool
  | [] => true
  | (_, v) :: fs => wfVal v && wfFields fs

end

/-! ### Concrete inputs used by counterexamples and witnesses -/

/-- Scenario B payload shape: `{refNumber:"R1", lineItems:[{qty}]}`. -/
def vplPayload (qty : Int) : JsVal :=
  .obj [("refNumber", .str "R1"), ("lineItems", .arr [.obj [("qty", .num qty)]])]

/-- The Scenario B payload with a tampered quantity, carrying a seal:
`{...tampered, securityHash: seal}`. -/
def vplTampered (qty : Int) (sealHex : String) : JsVal :=
  .obj [("refNumber", .str "R1"), ("lineItems", .arr [.obj [("qty", .num qty)]]),
    ("securityHash", .str sealHex)]

/-- A payload with a nested object, keys inserted in one order. -/
def orderedPayloadA : JsVal :=
  .obj [("a", .num 1), ("b", .obj [("x", .num 2), ("a", .str "s")])]

/-- The structurally equal payload with keys inserted in the other order at
both nesting levels. -/
def orderedPayloadB : JsVal :=
  .obj [("b", .obj [("a", .str "s"), ("x", .num 2)]), ("a", .num 1)]

/-- A concrete stand-in digest used only to *instantiate* theorems that hold
for every `hmac` function. -/
def concreteHmac (key msg : String) : String := key ++ ":" ++ msg

/-- A one-order store with no milestones: order `1` pending, one invoice. -/
def exampleDb : DB :=
  { orders := [{ orderid := 1, orderstatus := "Pending" }],
    poinvoice := [{ invoiceid := 10, orderid := 1, expectedstockstatus := "planning" }],
    milestones := [],
    communications := [] }

/-- Confirm order `1`, then invoke `ready-to-ship` twice. -/
def exampleActions : List (MilestoneType × Nat × Nat) :=
  [(.orderConfirmed, 1, 7), (.readyToShip, 1, 7), (.readyToShip, 1, 7)]

/-!
## Theorems

First the shared helper lemmas, then one theorem per claim (with its
witness or counterexample where required).
-/

/-! ### Component projections of the write operations -/

@[simp]
theorem updateOrderStatus_milestones (db : DB) (oid : Nat) (st : String) :
    (updateOrderStatus db oid st).milestones = db.milestones := rfl

@[simp]
theorem updateInvoices_milestones (db : DB) (oid : Nat) (st : String) :
    (updateInvoices db oid st).milestones = db.milestones := rfl

@[simp]
theorem insertCommunication_milestones (db : DB) (row : CommunicationRow) :
    (insertCommunication db row).milestones = db.milestones := rfl

@[simp]
theorem insertMilestone_milestones (db : DB) (row : MilestoneRow) :
    (insertMilestone db row).milestones = db.milestones ++ [row] := rfl

@[simp]
theorem updateOrderStatus_poinvoice (db : DB) (oid : Nat) (st : String) :
    (updateOrderStatus db oid st).poinvoice = db.poinvoice := rfl

@[simp]
theorem updateInvoices_poinvoice (db : DB) (oid : Nat) (st : String) :
    (updateInvoices db oid st).poinvoice =
      db.poinvoice.map
        (fun i => if i.orderid = oid then { i with expectedstockstatus := st } else i) := rfl

@[simp]
theorem insertCommunication_poinvoice (db : DB) (row : CommunicationRow) :
    (insertCommunication db row).poinvoice = db.poinvoice := rfl

@[simp]
theorem insertMilestone_poinvoice (db : DB) (row : MilestoneRow) :
    (insertMilestone db row).poinvoice = db.poinvoice := rfl

@[simp]
theorem updateOrderStatus_orders (db : DB) (oid : Nat) (st : String) :
    (updateOrderStatus db oid st).orders =
      db.orders.map
        (fun o => if o.orderid = oid then { o with orderstatus := st } else o) := rfl

@[simp]
theorem updateInvoices_orders (db : DB) (oid : Nat) (st : String) :
    (updateInvoices db oid st).orders = db.orders := rfl

@[simp]
theorem insertCommunication_orders (db : DB) (row : CommunicationRow) :
    (insertCommunication db row).orders = db.orders := rfl

@[simp]
theorem insertMilestone_orders (db : DB) (row : MilestoneRow) :
    (insertMilestone db row).orders = db.orders := rfl

/-! ### Counting lemmas -/

/-- `countMilestoneRows` only reads the milestones column. -/
theorem countMilestoneRows_congr {db db2 : DB} (h : db2.milestones = db.milestones)
    (oid : Nat) (t : MilestoneType) :
    countMilestoneRows db2 oid t = countMilestoneRows db oid t := by
  simp [countMilestoneRows, h]

/-- `countCompletedRows` only reads the milestones column. -/
theorem countCompletedRows_congr {db db2 : DB} (h : db2.milestones = db.milestones)
    (oid : Nat) (t : MilestoneType) :
    countCompletedRows db2 oid t = countCompletedRows db oid t := by
  simp [countCompletedRows, h]

@[simp]
theorem countMilestoneRows_insertMilestone (db : DB) (row : MilestoneRow)
    (oid : Nat) (t : MilestoneType) :
    countMilestoneRows (insertMilestone db row) oid t =
      countMilestoneRows db oid t +
        (if row.orderid = oid ∧ row.milestonetype = t then 1 else 0) := by
  by_cases h : row.orderid = oid ∧ row.milestonetype = t <;>
    simp [countMilestoneRows, insertMilestone, List.filter_append, List.filter_cons, h]

@[simp]
theorem countCompletedRows_insertMilestone (db : DB) (row : MilestoneRow)
    (oid : Nat) (t : MilestoneType) :
    countCompletedRows (insertMilestone db row) oid t =
      countCompletedRows db oid t +
        (if row.orderid = oid ∧ row.milestonetype = t ∧ row.status = "completed"
         then 1 else 0) := by
  by_cases h : row.orderid = oid ∧ row.milestonetype = t ∧ row.status = "completed" <;>
    simp [countCompletedRows, insertMilestone, List.filter_append, List.filter_cons, h]

theorem hasCompleted_insertMilestone (db : DB) (row : MilestoneRow)
    (oid : Nat) (t : MilestoneType) :
    hasCompleted (insertMilestone db row) oid t ↔
      (hasCompleted db oid t ∨
        (row.orderid = oid ∧ row.milestonetype = t ∧ row.status = "completed")) := by
  simp only [hasCompleted, countCompletedRows_insertMilestone]
  split <;> rename_i hcond
  · simp [hcond]
  · simp [hcond]

theorem hasCompleted_congr {db db2 : DB} (h : db2.milestones = db.milestones)
    (oid : Nat) (t : MilestoneType) :
    hasCompleted db2 oid t ↔ hasCompleted db oid t := by
  simp [hasCompleted, countCompletedRows_congr h]

/-! ### Claim C10 — status codec -/

/-- Claim C10: the status codec round-trips on its five defined entries
(`toCode (toLabel c) = c` for `c ∈ 1..5`, `toLabel (toCode l) = l` for the
five labels), numeric input passes through `toCode` unchanged, an
unrecognized label maps to `1`, and an unrecognized code maps to
`"Pending"`. -/
theorem status_codec_roundtrip :
    (∀ n : Int, mapStatusToInt (.num n) = n) ∧
    (mapStatusToInt (.str (mapStatusToString 1)) = 1 ∧
     mapStatusToInt (.str (mapStatusToString 2)) = 2 ∧
     mapStatusToInt (.str (mapStatusToString 3)) = 3 ∧
     mapStatusToInt (.str (mapStatusToString 4)) = 4 ∧
     mapStatusToInt (.str (mapStatusToString 5)) = 5) ∧
    (mapStatusToString (mapStatusToInt (.str "Pending")) = "Pending" ∧
     mapStatusToString (mapStatusToInt (.str "Confirmed")) = "Confirmed" ∧
     mapStatusToString (mapStatusToInt (.str "In Transit")) = "In Transit" ∧
     mapStatusToString (mapStatusToInt (.str "Delivered")) = "Delivered" ∧
     mapStatusToString (mapStatusToInt (.str "Cancelled")) = "Cancelled") ∧
    mapStatusToInt (.str "bogus") = 1 ∧
    mapStatusToString 999 = "Pending" :=
  ⟨fun _ => rfl, ⟨rfl, rfl, rfl, rfl, rfl⟩, ⟨rfl, rfl, rfl, rfl, rfl⟩, rfl, rfl⟩

/-! ### Claim C9 — attestation secret fallback -/

/-- Claim C9 fails on the code: with the secret absent from external
configuration (or set to the falsy empty string), startup does not fail; the
process computes seals with the compiled-in, non-empty default secret. -/
theorem default_secret_fallback :
    vplSecretKey none = defaultVplSecret ∧
    vplSecretKey (some "") = defaultVplSecret ∧
    defaultVplSecret ≠ "" := by
  refine ⟨rfl, rfl, ?_⟩
  decide

/-! ### Claim C6 — nested tampering is not detected -/

/-- Claim C6 fails on the code: the array replacer
`Object.keys(cleanData).sort()` whitelists only top-level key names at every
nesting level, so the nested `qty` is dropped from the canonical form;
changing `lineItems[0].qty` from `10` to `11` leaves the canonical form (and
hence the seal) unchanged, and verification of the tampered payload reports
`isValid = true` — for every digest function and secret. -/
theorem nested_tamper_not_detected (hmac : String → String → String) (key : String) :
    (verifySecurityHash hmac key
      (vplTampered 11 (generateSecurityHash hmac key (vplPayload 10)))).isValid = true := by
  show (hmac key (canonicalForm (vplPayload 10)) ==
      hmac key (canonicalForm (vplPayload 10))) = true
  exact beq_self_eq_true (hmac key (canonicalForm (vplPayload 10)))

/-! ### Claim C8 — seal round trip -/

/-- Setting a key makes it the first lookup hit. -/
theorem lookup_setField (key : String) (v : JsVal) (fs : List (String × JsVal)) :
    List.lookup key (setField key v fs) = some v := by
  induction fs with
  | nil => simp [setField, List.lookup]
  | cons kv fs ih =>
      obtain ⟨k, w⟩ := kv
      by_cases h : k = key
      · simp [setField, h, List.lookup]
      · simp only [setField, if_neg h, List.lookup]
        have : (key == k) = false := by
          simp [Ne.symm h]
        simp [this, ih]

/-- Deleting a key erases whatever `setField` wrote for it. -/
theorem filter_setField (key : String) (v : JsVal) (fs : List (String × JsVal)) :
    (setField key v fs).filter (fun kv => kv.1 ≠ key) =
      fs.filter (fun kv => kv.1 ≠ key) := by
  induction fs with
  | nil => simp [setField]
  | cons kv fs ih =>
      obtain ⟨k, w⟩ := kv
      by_cases h : k = key
      · subst h
        simp [setField]
      · simp [setField, h]
        simpa using ih

/-- Claim C8: for every payload object, generating a seal (the stored
`securityHash` field is stripped first) and then verifying the payload
carrying that seal recomputes the same digest and reports `isValid = true`,
for every digest function and secret. -/
theorem verify_generate_roundtrip (hmac : String → String → String) (secretKey : String)
    (fs : List (String × JsVal)) :
    (verifySecurityHash hmac secretKey
      (attachSecurityHash hmac secretKey (.obj fs))).isValid = true := by
  have hgen : ∀ v, generateSecurityHash hmac secretKey
      (.obj (setField "securityHash" v fs)) =
      generateSecurityHash hmac secretKey (.obj fs) := by
    intro v
    simp only [generateSecurityHash, jsDelete, filter_setField]
  simp only [verifySecurityHash, attachSecurityHash, jsGet, hgen, lookup_setField,
    strictEqStr, beq_self_eq_true]

/-! ### Milestone state: more counting lemmas -/

@[simp]
theorem countCompletedRows_updateInvoices (db : DB) (oid2 : Nat) (st : String)
    (oid : Nat) (t : MilestoneType) :
    countCompletedRows (updateInvoices db oid2 st) oid t = countCompletedRows db oid t := rfl

@[simp]
theorem countCompletedRows_updateOrderStatus (db : DB) (oid2 : Nat) (st : String)
    (oid : Nat) (t : MilestoneType) :
    countCompletedRows (updateOrderStatus db oid2 st) oid t = countCompletedRows db oid t := rfl

@[simp]
theorem countCompletedRows_insertCommunication (db : DB) (row : CommunicationRow)
    (oid : Nat) (t : MilestoneType) :
    countCompletedRows (insertCommunication db row) oid t = countCompletedRows db oid t := rfl

@[simp]
theorem countMilestoneRows_updateInvoices (db : DB) (oid2 : Nat) (st : String)
    (oid : Nat) (t : MilestoneType) :
    countMilestoneRows (updateInvoices db oid2 st) oid t = countMilestoneRows db oid t := rfl

@[simp]
theorem countMilestoneRows_updateOrderStatus (db : DB) (oid2 : Nat) (st : String)
    (oid : Nat) (t : MilestoneType) :
    countMilestoneRows (updateOrderStatus db oid2 st) oid t = countMilestoneRows db oid t := rfl

@[simp]
theorem countMilestoneRows_insertCommunication (db : DB) (row : CommunicationRow)
    (oid : Nat) (t : MilestoneType) :
    countMilestoneRows (insertCommunication db row) oid t = countMilestoneRows db oid t := rfl

/-! ### Claim C3 — missing predecessor is rejected with no writes -/

/-- Claim C3: for every action whose type has a required predecessor in the
transition table, invoking it while the predecessor is not completed returns
the 400 precondition error naming the missing step, and the returned state
is the unchanged input state (no order, invoice, milestone, or communication
write). -/
theorem missing_predecessor_rejected (db : DB) (oid uid : Nat) (failAt : Option Nat)
    (t pt : MilestoneType) (hpt : predecessorOf t = some pt)
    (h : ¬ hasCompleted db oid pt) :
    recordMilestone t db oid uid failAt = (.err 400 (guardFailureMessage t), db) := by
  cases t <;>
    simp_all [predecessorOf, recordMilestone, readyToShip, goodsShipped, goodsArrived,
      goodsReceived, guardFailureMessage]

/-- Witness for C3: `goods-arrived` on a store where `goods_shipped` is not
completed is rejected and writes nothing. -/
theorem missing_predecessor_rejected_witness :
    predecessorOf .goodsArrived = some .goodsShipped ∧
    ¬ hasCompleted exampleDb 1 .goodsShipped ∧
    recordMilestone .goodsArrived exampleDb 1 7 none =
      (.err 400 (guardFailureMessage .goodsArrived), exampleDb) :=
  ⟨rfl, by decide,
    missing_predecessor_rejected exampleDb 1 7 none .goodsArrived .goodsShipped rfl (by decide)⟩

/-! ### Claim C4 — successful actions apply exactly the mapped cascade -/

/-- Claim C4: when a milestone action succeeds, the invoices of the order
all receive exactly the mapped `expectedstockstatus` (no invoice change for
`OrderConfirmed`; other orders' invoices unchanged), and the order status
becomes exactly the mapped label (`Confirmed`/`Shipped`/`Completed`;
unchanged for `ReadyToShip` and `GoodsArrived`). -/
theorem milestone_cascade_effects (db : DB) (oid uid : Nat) (t : MilestoneType) (msg : String)
    (h : (recordMilestone t db oid uid none).1 = .ok msg) :
    ((recordMilestone t db oid uid none).2.poinvoice =
      match invoiceCascade t with
      | none => db.poinvoice
      | some st => db.poinvoice.map
          (fun i => if i.orderid = oid then { i with expectedstockstatus := st } else i)) ∧
    ((recordMilestone t db oid uid none).2.orders =
      match orderCascade t with
      | none => db.orders
      | some st => db.orders.map
          (fun o => if o.orderid = oid then { o with orderstatus := st } else o)) := by
  cases t <;>
    simp only [recordMilestone, confirmOrder, readyToShip, goodsShipped, goodsArrived,
      goodsReceived, runTransaction, List.foldl] at h ⊢ <;>
    split_ifs at h ⊢ <;>
    simp_all [invoiceCascade, orderCascade]

/-- Witness for C4: `goods-shipped` on a store where `ready_to_ship` is
completed marks every invoice of order `1` as `shipped` and the order as
`Shipped`. -/
theorem milestone_cascade_effects_witness :
    ((recordMilestone .goodsShipped
        (runActions exampleDb [(.orderConfirmed, 1, 7), (.readyToShip, 1, 7)]) 1 7 none).1 =
      .ok "Goods marked as shipped") ∧
    ((recordMilestone .goodsShipped
        (runActions exampleDb [(.orderConfirmed, 1, 7), (.readyToShip, 1, 7)]) 1 7 none).2.poinvoice =
      [{ invoiceid := 10, orderid := 1, expectedstockstatus := "shipped" }]) ∧
    ((recordMilestone .goodsShipped
        (runActions exampleDb [(.orderConfirmed, 1, 7), (.readyToShip, 1, 7)]) 1 7 none).2.orders =
      [{ orderid := 1, orderstatus := "Shipped" }]) := by
  refine ⟨by decide, ?_, ?_⟩
  · have h := milestone_cascade_effects
      (runActions exampleDb [(.orderConfirmed, 1, 7), (.readyToShip, 1, 7)]) 1 7 .goodsShipped
      "Goods marked as shipped" (by decide)
    exact h.1.trans (by decide)
  · have h := milestone_cascade_effects
      (runActions exampleDb [(.orderConfirmed, 1, 7), (.readyToShip, 1, 7)]) 1 7 .goodsShipped
      "Goods marked as shipped" (by decide)
    exact h.2.trans (by decide)

/-! ### Claim C5 — the cascade is all-or-nothing -/

/-- Claim C5: for every action and every injected statement failure, the
resulting stored state is either exactly the input state (guard failure or
mid-transaction fault, rolled back) or exactly the fully committed cascade
state, which contains the new completed milestone row for the action's type
— so a committed invoice update is always accompanied by its milestone row,
and no partial cascade is ever visible. -/
theorem milestone_transaction_atomic (t : MilestoneType) (db : DB) (oid uid : Nat)
    (failAt : Option Nat) :
    (recordMilestone t db oid uid failAt).2 = db ∨
    ((recordMilestone t db oid uid failAt).2 = (recordMilestone t db oid uid none).2 ∧
     countCompletedRows (recordMilestone t db oid uid failAt).2 oid t =
       countCompletedRows db oid t + 1) := by
  cases t <;>
    rcases failAt with _ | i <;>
    simp only [recordMilestone, confirmOrder, readyToShip, goodsShipped, goodsArrived,
      goodsReceived, runTransaction, List.foldl, List.length_cons, List.length_nil] <;>
    split_ifs <;>
    simp_all [confirmRow, readyToShipRow, goodsShippedRow, goodsArrivedRow, goodsReceivedRow]

/-! ### Claim C2 — duplicate invocation -/

/-- Claim C2 fails on the code: with `ReadyToShip` already completed for
order `1`, a second `ready-to-ship` invocation succeeds with 200 instead of
failing with a Conflict error (and, per the run in the C1 counterexample,
inserts a second completed row). -/
theorem duplicate_action_succeeds_counterexample :
    hasCompleted (runActions exampleDb [(.orderConfirmed, 1, 7), (.readyToShip, 1, 7)]) 1
      .readyToShip ∧
    (recordMilestone .readyToShip
        (runActions exampleDb [(.orderConfirmed, 1, 7), (.readyToShip, 1, 7)]) 1 7 none).1 =
      .ok "Goods marked as ready to ship" :=
  ⟨by decide, by decide⟩

/-- Claim C2 amended: only `confirm-order` rejects duplicates — when an
`order_confirmed` row already exists (and the ids are truthy) it fails 400
`Order already confirmed` with no writes; the other four actions perform no
duplicate check, so whenever the required predecessor is completed they
succeed — even if their own type is already completed — and insert one more
completed row of that type. -/
theorem duplicate_handling_per_action :
    (∀ db oid uid failAt, oid ≠ 0 → uid ≠ 0 →
      0 < countMilestoneRows db oid .orderConfirmed →
      confirmOrder db oid uid failAt = (.err 400 "Order already confirmed", db)) ∧
    (∀ db oid uid t pt, predecessorOf t = some pt → hasCompleted db oid pt →
      (recordMilestone t db oid uid none).1 = .ok (successMessage t) ∧
      countCompletedRows (recordMilestone t db oid uid none).2 oid t =
        countCompletedRows db oid t + 1) := by
  constructor
  · intro db oid uid failAt hoid huid hdup
    simp [confirmOrder, hoid, huid, hdup]
  · intro db oid uid t pt hpt hpred
    cases t <;>
      simp_all [recordMilestone, predecessorOf, readyToShip, goodsShipped, goodsArrived,
        goodsReceived, runTransaction, List.foldl, successMessage, readyToShipRow,
        goodsShippedRow, goodsArrivedRow, goodsReceivedRow]

/-- Witness for the amended C2 at concrete inputs: a duplicate
`confirm-order` for order `1` is rejected with no writes, while a second
`ready-to-ship` succeeds. -/
theorem duplicate_handling_per_action_witness :
    ((1 : Nat) ≠ 0) ∧ ((7 : Nat) ≠ 0) ∧
    0 < countMilestoneRows (runActions exampleDb [(.orderConfirmed, 1, 7)]) 1 .orderConfirmed ∧
    confirmOrder (runActions exampleDb [(.orderConfirmed, 1, 7)]) 1 7 none =
      (.err 400 "Order already confirmed", runActions exampleDb [(.orderConfirmed, 1, 7)]) ∧
    predecessorOf .readyToShip = some .orderConfirmed ∧
    hasCompleted (runActions exampleDb [(.orderConfirmed, 1, 7), (.readyToShip, 1, 7)]) 1
      .orderConfirmed ∧
    (recordMilestone .readyToShip
        (runActions exampleDb [(.orderConfirmed, 1, 7), (.readyToShip, 1, 7)]) 1 7 none).1 =
      .ok (successMessage .readyToShip) :=
  ⟨by decide, by decide, by decide,
    duplicate_handling_per_action.1 _ 1 7 none (by decide) (by decide) (by decide),
    rfl, by decide,
    (duplicate_handling_per_action.2 _ 1 7 .readyToShip .orderConfirmed rfl (by decide)).1⟩

/-! ### Claim C1 — run invariant of the guarded actions -/

/-- Each guarded action preserves the per-order milestone invariant. -/
theorem milestoneInvariant_recordMilestone (t : MilestoneType) (db : DB) (oid2 uid oid : Nat)
    (h : milestoneInvariant db oid) :
    milestoneInvariant (recordMilestone t db oid2 uid none).2 oid := by
  obtain ⟨hc, h1, h2, h3, h4⟩ := h
  by_cases hoid : oid2 = oid <;>
    cases t <;>
      simp only [recordMilestone, confirmOrder, readyToShip, goodsShipped, goodsArrived,
        goodsReceived, runTransaction, List.foldl] <;>
      split_ifs <;>
      first
        | exact ⟨hc, h1, h2, h3, h4⟩
        | (refine ⟨?_, ?_, ?_, ?_, ?_⟩ <;>
            simp_all [milestoneInvariant, hasCompleted, confirmRow, readyToShipRow,
              goodsShippedRow, goodsArrivedRow, goodsReceivedRow])

/-- The invariant is preserved along any guarded action sequence. -/
theorem milestoneInvariant_runActions (acts : List (MilestoneType × Nat × Nat)) (db : DB)
    (oid : Nat) (h : milestoneInvariant db oid) :
    milestoneInvariant (runActions db acts) oid := by
  induction acts generalizing db with
  | nil => exact h
  | cons a rest ih =>
      obtain ⟨t, oid2, uid⟩ := a
      exact ih _ (milestoneInvariant_recordMilestone t db oid2 uid oid h)

/-- An order with no milestone rows satisfies the invariant. -/
theorem milestoneInvariant_of_no_rows (db : DB) (oid : Nat)
    (h : ∀ r ∈ db.milestones, r.orderid ≠ oid) : milestoneInvariant db oid := by
  have hz : ∀ t, countCompletedRows db oid t = 0 := by
    intro t
    simp only [countCompletedRows, List.length_eq_zero, List.filter_eq_nil_iff]
    intro r hr
    simp [h r hr]
  have hz2 : countMilestoneRows db oid .orderConfirmed = 0 := by
    simp only [countMilestoneRows, List.length_eq_zero, List.filter_eq_nil_iff]
    intro r hr
    simp [h r hr]
  refine ⟨by omega, ?_, ?_, ?_, ?_⟩ <;> simp [hasCompleted, hz]

/-- Under the invariant, the completed types are the first `n` links of the
canonical chain. -/
theorem completedTypes_take (db : DB) (oid : Nat) (h : milestoneInvariant db oid) :
    ∃ n, completedTypes db oid = milestoneChain.take n := by
  obtain ⟨-, h1, h2, h3, h4⟩ := h
  by_cases b1 : hasCompleted db oid .orderConfirmed <;>
  by_cases b2 : hasCompleted db oid .readyToShip <;>
  by_cases b3 : hasCompleted db oid .goodsShipped <;>
  by_cases b4 : hasCompleted db oid .goodsArrived <;>
  by_cases b5 : hasCompleted db oid .goodsReceived <;>
  simp only [completedTypes, milestoneChain, List.filter, b1, b2, b3, b4, b5, decide_True,
    decide_False, decide_eq_true_eq] <;>
  first
    | exact absurd (h1 b2) b1
    | exact absurd (h2 b3) b2
    | exact absurd (h3 b4) b3
    | exact absurd (h4 b5) b4
    | exact ⟨0, rfl⟩
    | exact ⟨1, rfl⟩
    | exact ⟨2, rfl⟩
    | exact ⟨3, rfl⟩
    | exact ⟨4, rfl⟩
    | exact ⟨5, rfl⟩

/-- Claim C1 amended: starting from an order with no milestone rows, after
any sequence of the five guarded actions the order has at most one
`order_confirmed` row and its completed types form a contiguous head of the
canonical chain; the claim's at-most-one-row part fails for the other four
types (see the counterexample), which may accumulate duplicate rows. -/
theorem milestone_guarded_run_invariant (acts : List (MilestoneType × Nat × Nat)) (db0 : DB)
    (oid : Nat) (h : ∀ r ∈ db0.milestones, r.orderid ≠ oid) :
    countMilestoneRows (runActions db0 acts) oid .orderConfirmed ≤ 1 ∧
    ∃ n, completedTypes (runActions db0 acts) oid = milestoneChain.take n := by
  have hinv := milestoneInvariant_runActions acts db0 oid (milestoneInvariant_of_no_rows db0 oid h)
  exact ⟨hinv.1, completedTypes_take _ _ hinv⟩

/-- Witness for the amended C1 on a concrete run (confirm, then
ready-to-ship twice). -/
theorem milestone_guarded_run_invariant_witness :
    (∀ r ∈ exampleDb.milestones, r.orderid ≠ 1) ∧
    (countMilestoneRows (runActions exampleDb exampleActions) 1 .orderConfirmed ≤ 1 ∧
     ∃ n, completedTypes (runActions exampleDb exampleActions) 1 = milestoneChain.take n) :=
  ⟨by simp [exampleDb], milestone_guarded_run_invariant exampleActions exampleDb 1
    (by simp [exampleDb])⟩

/-- Claim C1 fails as stated: after confirm-order and two ready-to-ship
calls on order `1`, the milestones table holds two rows for
`(1, ready_to_ship)` — more than one row per `(orderId, type)`. -/
theorem milestone_duplicate_rows_counterexample :
    countMilestoneRows (runActions exampleDb exampleActions) 1 .readyToShip = 2 ∧
    ¬ countMilestoneRows (runActions exampleDb exampleActions) 1 .readyToShip ≤ 1 :=
  ⟨by decide, by decide⟩

/-! ### Claim C7 — the sort comparison is a total order -/

theorem charListLe_total : ∀ (a b : List Char),
    charListLe a b = true ∨ charListLe b a = true
  | [], _ => Or.inl rfl
  | _ :: _, [] => Or.inr rfl
  | a :: as, b :: bs => by
      by_cases h1 : a < b
      · left
        simp [charListLe, h1]
      · by_cases h2 : b < a
        · right
          simp [charListLe, h1, h2]
        · rcases charListLe_total as bs with h | h
          · left
            simp [charListLe, h1, h2, h]
          · right
            simp [charListLe, h1, h2, h]

theorem charListLe_trans : ∀ {a b c : List Char}, charListLe a b = true →
    charListLe b c = true → charListLe a c = true
  | [], _, _, _, _ => rfl
  | _ :: _, [], _, h1, _ => by simp [charListLe] at h1
  | _ :: _, _ :: _, [], _, h2 => by simp [charListLe] at h2
  | a :: as, b :: bs, c :: cs, h1, h2 => by
      simp only [charListLe] at h1 h2 ⊢
      by_cases hab : a < b
      · by_cases hbc : b < c
        · simp [lt_trans hab hbc]
        · by_cases hcb : c < b
          · simp [hbc, hcb] at h2
          · have hbceq : b = c := le_antisymm (not_lt.mp hcb) (not_lt.mp hbc)
            subst hbceq
            simp [hab]
      · by_cases hba : b < a
        · simp [hab, hba] at h1
        · have habeq : a = b := le_antisymm (not_lt.mp hba) (not_lt.mp hab)
          subst habeq
          simp only [lt_irrefl, if_false] at h1
          by_cases hac : a < c
          · simp [hac]
          · by_cases hca : c < a
            · simp [hac, hca] at h2
            · have haceq : a = c := le_antisymm (not_lt.mp hca) (not_lt.mp hac)
              subst haceq
              simp only [lt_irrefl, if_false] at h2 ⊢
              exact charListLe_trans h1 h2

theorem charListLe_antisymm : ∀ {a b : List Char}, charListLe a b = true →
    charListLe b a = true → a = b
  | [], [], _, _ => rfl
  | [], _ :: _, _, h2 => by simp [charListLe] at h2
  | _ :: _, [], h1, _ => by simp [charListLe] at h1
  | a :: as, b :: bs, h1, h2 => by
      simp only [charListLe] at h1 h2
      by_cases hab : a < b
      · simp [lt_asymm hab, hab] at h2
      · by_cases hba : b < a
        · simp [hab, hba] at h1
        · have habeq : a = b := le_antisymm (not_lt.mp hba) (not_lt.mp hab)
          subst habeq
          simp only [lt_irrefl, if_false] at h1 h2
          exact congrArg (a :: ·) (charListLe_antisymm h1 h2)

theorem strLeb_total (a b : String) : strLeb a b = true ∨ strLeb b a = true :=
  charListLe_total a.data b.data

theorem strLeb_trans {a b c : String} (h1 : strLeb a b = true) (h2 : strLeb b c = true) :
    strLeb a c = true :=
  charListLe_trans h1 h2

theorem strLeb_antisymm {a b : String} (h1 : strLeb a b = true) (h2 : strLeb b a = true) :
    a = b := by
  obtain ⟨da⟩ := a
  obtain ⟨db⟩ := b
  exact congrArg String.mk (charListLe_antisymm h1 h2)

/-! ### Claim C7 — sorting lemmas -/

theorem insertSorted_perm (s : String) (l : List String) :
    (insertSorted s l).Perm (s :: l) := by
  induction l with
  | nil => exact List.Perm.refl _
  | cons t ts ih =>
      simp only [insertSorted]
      split
      · exact List.Perm.refl _
      · exact (ih.cons t).trans (List.Perm.swap s t ts)

theorem sortStrings_perm (l : List String) : (sortStrings l).Perm l := by
  induction l with
  | nil => exact List.Perm.refl _
  | cons s ss ih =>
      exact (insertSorted_perm s (sortStrings ss)).trans (ih.cons s)

theorem insertSorted_pairwise {s : String} {l : List String}
    (hl : l.Pairwise (fun a b => strLeb a b = true)) :
    (insertSorted s l).Pairwise (fun a b => strLeb a b = true) := by
  induction l with
  | nil => simp [insertSorted]
  | cons t ts ih =>
      rw [List.pairwise_cons] at hl
      simp only [insertSorted]
      split
      case isTrue h =>
        refine List.pairwise_cons.mpr ⟨?_, List.pairwise_cons.mpr hl⟩
        intro x hx
        rcases List.mem_cons.mp hx with rfl | hx2
        · exact h
        · exact strLeb_trans h (hl.1 x hx2)
      case isFalse h =>
        refine List.pairwise_cons.mpr ⟨?_, ih hl.2⟩
        intro x hx
        rcases List.mem_cons.mp ((insertSorted_perm s ts).mem_iff.mp hx) with rfl | hx2
        · rcases strLeb_total t x with ht | ht
          · exact ht
          · exact absurd ht h
        · exact hl.1 x hx2

theorem sortStrings_pairwise (l : List String) :
    (sortStrings l).Pairwise (fun a b => strLeb a b = true) := by
  induction l with
  | nil => simp [sortStrings]
  | cons s ss ih => exact insertSorted_pairwise ih

theorem sortStrings_eq_of_perm {l l2 : List String} (h : l.Perm l2) :
    sortStrings l = sortStrings l2 := by
  haveI : IsAntisymm String (fun a b => strLeb a b = true) :=
    ⟨fun _ _ h1 h2 => strLeb_antisymm h1 h2⟩
  exact List.eq_of_perm_of_sorted
    ((sortStrings_perm l).trans (h.trans (sortStrings_perm l2).symm))
    (sortStrings_pairwise l) (sortStrings_pairwise l2)

/-! ### Claim C7 — lookup and well-formedness lemmas -/

/-- Looking a key up in the serialized field list serializes the looked-up
value. -/
theorem lookup_serializeFields (ks : List String) (fs : List (String × JsVal)) (k : String) :
    List.lookup k (serializeFields ks fs) = (List.lookup k fs).map (serializeVal ks) := by
  induction fs with
  | nil => simp [serializeFields]
  | cons kv fs ih =>
      obtain ⟨k2, v⟩ := kv
      simp only [serializeFields, List.lookup]
      cases hk : (k == k2)
      · simpa using ih
      · simp

/-- Lookup is permutation-invariant on duplicate-free key lists. -/
theorem lookup_eq_of_perm {l l2 : List (String × JsVal)} (h : l.Perm l2)
    (hnd : (l.map Prod.fst).Nodup) (k : String) :
    List.lookup k l = List.lookup k l2 := by
  induction h with
  | nil => rfl
  | cons x h ih =>
      obtain ⟨k2, v⟩ := x
      simp only [List.lookup]
      cases hk : (k == k2)
      · simp only [List.map_cons, List.nodup_cons] at hnd
        exact ih hnd.2
      · rfl
  | swap x y l =>
      obtain ⟨kx, vx⟩ := x
      obtain ⟨ky, vy⟩ := y
      simp only [List.map_cons, List.nodup_cons, List.mem_cons] at hnd
      simp only [List.lookup]
      cases hkx : (k == kx) <;> cases hky : (k == ky) <;> simp [hkx, hky]
      exact absurd (((eq_of_beq hkx).symm.trans (eq_of_beq hky)).symm) (fun hcon => hnd.1 (Or.inl hcon))
  | trans h1 h2 ih1 ih2 =>
      have hnd2 : (_ : List (String × JsVal)).map Prod.fst |>.Nodup :=
        ((h1.map Prod.fst).nodup_iff).mp hnd
      exact (ih1 hnd).trans (ih2 hnd2)

/-- A successful lookup comes from some binding of the list. -/
theorem lookup_mem : ∀ {l : List (String × JsVal)} {k : String} {v : JsVal},
    List.lookup k l = some v → ∃ k2, (k2, v) ∈ l
  | [], _, _, h => by simp [List.lookup] at h
  | (k2, w) :: l, k, v, h => by
      simp only [List.lookup] at h
      cases hk : (k == k2) <;> rw [hk] at h
      · obtain ⟨k3, hm⟩ := lookup_mem h
        exact ⟨k3, List.mem_cons_of_mem _ hm⟩
      · simp only [Option.some.injEq] at h
        exact ⟨k2, by simp [h]⟩

/-- `distinctKeys` is `Nodup`. -/
theorem distinctKeys_nodup : ∀ {l : List String}, distinctKeys l = true ↔ l.Nodup
  | [] => by simp [distinctKeys]
  | k :: ks => by
      have hrec := @distinctKeys_nodup ks
      simp only [distinctKeys, Bool.and_eq_true, Bool.not_eq_true', List.nodup_cons]
      constructor
      · rintro ⟨h1, h2⟩
        refine ⟨fun hm => ?_, hrec.mp h2⟩
        have hc : ks.contains k = true := List.elem_iff.mpr hm
        rw [hc] at h1
        cases h1
      · rintro ⟨h1, h2⟩
        refine ⟨?_, hrec.mpr h2⟩
        cases he : ks.contains k
        · rfl
        · exact absurd (List.elem_iff.mp he) h1

/-- Every field value of a well-formed field list is well-formed. -/
theorem wfFields_mem : ∀ {fs : List (String × JsVal)}, wfFields fs = true →
    ∀ {kv : String × JsVal}, kv ∈ fs → wfVal kv.2 = true
  | [], _, _, hm => by simp at hm
  | (k, v) :: fs, h, kv, hm => by
      simp only [wfFields, Bool.and_eq_true] at h
      rcases List.mem_cons.mp hm with rfl | hm2
      · exact h.1
      · exact wfFields_mem h.2 hm2

/-- Every element of a well-formed element list is well-formed. -/
theorem wfElems_mem : ∀ {xs : List JsVal}, wfElems xs = true →
    ∀ {x : JsVal}, x ∈ xs → wfVal x = true
  | [], _, _, hm => by simp at hm
  | y :: xs, h, x, hm => by
      simp only [wfElems, Bool.and_eq_true] at h
      rcases List.mem_cons.mp hm with rfl | hm2
      · exact h.1
      · exact wfElems_mem h.2 hm2

/-- Pointwise-equal field lists have equal key lists. -/
theorem structEqFields_keys : ∀ {fs hs : List (String × JsVal)}, structEqFields fs hs →
    fs.map Prod.fst = hs.map Prod.fst
  | [], [], _ => rfl
  | [], _ :: _, h => h.elim
  | _ :: _, [], h => h.elim
  | (k, v) :: fs, (k2, w) :: hs, h => by
      obtain ⟨hk, _, hrest⟩ := h
      simp [hk, structEqFields_keys hrest]

/-- Pointwise-equal field lists have pointwise-related lookups, with
memberships recording where each value came from. -/
theorem structEqFields_lookup : ∀ {fs hs : List (String × JsVal)}, structEqFields fs hs →
    ∀ k : String, (List.lookup k fs = none ∧ List.lookup k hs = none) ∨
      (∃ v w, List.lookup k fs = some v ∧ List.lookup k hs = some w ∧ structEq v w ∧
        (∃ k2, (k2, v) ∈ fs) ∧ (∃ k2, (k2, w) ∈ hs))
  | [], [], _, k => Or.inl ⟨rfl, rfl⟩
  | [], _ :: _, h, _ => h.elim
  | _ :: _, [], h, _ => h.elim
  | (k1, v) :: fs, (k2, w) :: hs, h, k => by
      obtain ⟨hk, hvw, hrest⟩ := h
      subst hk
      simp only [List.lookup]
      cases hbk : (k == k1)
      · rcases structEqFields_lookup hrest k with ⟨hn1, hn2⟩ | ⟨v2, w2, h1, h2, h3, ⟨k3, hm1⟩, ⟨k4, hm2⟩⟩
        · exact Or.inl ⟨hn1, hn2⟩
        · exact Or.inr ⟨v2, w2, h1, h2, h3, ⟨k3, List.mem_cons_of_mem _ hm1⟩,
            ⟨k4, List.mem_cons_of_mem _ hm2⟩⟩
      · exact Or.inr ⟨v, w, rfl, rfl, hvw, ⟨k1, List.mem_cons_self _ _⟩,
          ⟨k1, List.mem_cons_self _ _⟩⟩

/-- Structural induction on `JsVal` with member hypotheses for the nested
lists. -/
theorem JsVal.inductionOn {motive : JsVal → Prop} (hnull : motive .null)
    (hbool : ∀ b, motive (.bool b)) (hnum : ∀ n, motive (.num n))
    (hstr : ∀ s, motive (.str s))
    (harr : ∀ xs, (∀ x ∈ xs, motive x) → motive (.arr xs))
    (hobj : ∀ fs, (∀ kv ∈ fs, motive kv.2) → motive (.obj fs)) :
    ∀ v, motive v := by
  have key : ∀ n : Nat, ∀ v : JsVal, sizeOf v ≤ n → motive v := by
    intro n
    induction n with
    | zero =>
        intro v hv
        exfalso
        cases v <;> simp at hv
    | succ n ih =>
        intro v hv
        cases v with
        | null => exact hnull
        | bool b => exact hbool b
        | num m => exact hnum m
        | str s => exact hstr s
        | arr xs =>
            refine harr xs (fun x hx => ih x ?_)
            have h1 := List.sizeOf_lt_of_mem hx
            simp only [JsVal.arr.sizeOf_spec] at hv
            omega
        | obj fs =>
            refine hobj fs (fun kv hkv => ih kv.2 ?_)
            have h1 := List.sizeOf_lt_of_mem hkv
            have h2 : sizeOf kv.2 < sizeOf kv := by
              obtain ⟨a, b⟩ := kv
              simp
            simp only [JsVal.obj.sizeOf_spec] at hv
            omega
  exact fun v => key (sizeOf v) v (le_refl _)

/-- `selectProps` only consults lookups of the serialized field list. -/
theorem selectProps_ext (ks : List String) {s1 s2 : List (String × String)}
    (h : ∀ k, List.lookup k s1 = List.lookup k s2) :
    selectProps ks s1 = selectProps ks s2 := by
  unfold selectProps
  congr 1
  funext k
  rw [h k]

/-- Element-wise congruence for array serialization, parameterized by the
member induction hypothesis. -/
theorem serializeElems_congr (ks : List String) : ∀ (xs ys : List JsVal),
    (∀ x ∈ xs, ∀ (q : JsVal) (ks2 : List String), wfVal x = true → wfVal q = true →
        structEq x q → serializeVal ks2 x = serializeVal ks2 q) →
    wfElems xs = true → wfElems ys = true → structEqElems xs ys →
    serializeElems ks xs = serializeElems ks ys
  | [], [], _, _, _, _ => rfl
  | [], _ :: _, _, _, _, h => h.elim
  | _ :: _, [], _, _, _, h => h.elim
  | x :: xs, y :: ys, hmem, h1, h2, h => by
      obtain ⟨hxy, hrest⟩ := h
      simp only [wfElems, Bool.and_eq_true] at h1 h2
      simp only [serializeElems]
      rw [hmem x (List.mem_cons_self _ _) y ks h1.1 h2.1 hxy,
        serializeElems_congr ks xs ys (fun z hz => hmem z (List.mem_cons_of_mem _ hz))
          h1.2 h2.2 hrest]

/-- Serialization under a fixed property list is invariant under structural
equality of well-formed values: the whitelist lookup ignores field order,
and nested values are serialized congruently. -/
theorem serializeVal_structEq : ∀ (p q : JsVal) (ks : List String),
    wfVal p = true → wfVal q = true → structEq p q →
    serializeVal ks p = serializeVal ks q := by
  intro p
  induction p using JsVal.inductionOn with
  | hnull =>
      intro q ks _ _ h
      cases q <;> first | rfl | exact h.elim
  | hbool b =>
      intro q ks _ _ h
      cases q <;> first | exact absurd h id | skip
      rename_i b2 hwq
      have h2 : b = b2 := h
      subst h2
      rfl
  | hnum n =>
      intro q ks _ _ h
      cases q <;> first | exact absurd h id | skip
      rename_i n2 hwq
      have h2 : n = n2 := h
      subst h2
      rfl
  | hstr s =>
      intro q ks _ _ h
      cases q <;> first | exact absurd h id | skip
      rename_i s2 hwq
      have h2 : s = s2 := h
      subst h2
      rfl
  | harr xs ihmem =>
      intro q ks h1 hw2q h
      cases q <;> first | exact absurd h id | skip
      rename_i ys
      have h3 : structEqElems xs ys := h
      have hwe1 : wfElems xs = true := h1
      have hwe2 : wfElems ys = true := hw2q
      have hE : serializeElems ks xs = serializeElems ks ys :=
        serializeElems_congr ks xs ys ihmem hwe1 hwe2 h3
      show "[" ++ String.intercalate "," (serializeElems ks xs) ++ "]" =
        "[" ++ String.intercalate "," (serializeElems ks ys) ++ "]"
      rw [hE]
  | hobj fs ihmem =>
      intro q ks h1 hw2q h
      cases q <;> first | exact absurd h id | skip
      rename_i gs
      obtain ⟨hs, hfs, hperm⟩ := (h : ∃ hs2, structEqFields fs hs2 ∧ hs2.Perm gs)
      have hw1 : (distinctKeys (fs.map Prod.fst) && wfFields fs) = true := h1
      have hw2 : (distinctKeys (gs.map Prod.fst) && wfFields gs) = true := hw2q
      rw [Bool.and_eq_true] at hw1 hw2
      have hX : selectProps ks (serializeFields ks fs) =
          selectProps ks (serializeFields ks gs) := by
        apply selectProps_ext
        intro k
        rw [lookup_serializeFields, lookup_serializeFields]
        have hnd_hs : (hs.map Prod.fst).Nodup := by
          rw [← structEqFields_keys hfs]
          exact (distinctKeys_nodup).mp hw1.1
        have hlg : List.lookup k hs = List.lookup k gs := lookup_eq_of_perm hperm hnd_hs k
        rcases structEqFields_lookup hfs k with ⟨hn1, hn2⟩ |
          ⟨v, w, hv, hw, hvw, ⟨k2, hmv⟩, ⟨k3, hmw⟩⟩
        · rw [hn1, ← hlg, hn2]
        · rw [hv, ← hlg, hw]
          have hwv : wfVal v = true := wfFields_mem hw1.2 hmv
          have hww : wfVal w = true := wfFields_mem hw2.2 (hperm.subset hmw)
          show some (serializeVal ks v) = some (serializeVal ks w)
          exact congrArg some (ihmem (k2, v) hmv w ks hwv hww hvw)
      show "\x7b" ++ String.intercalate "," (selectProps ks (serializeFields ks fs)) ++ "\x7d" =
        "\x7b" ++ String.intercalate "," (selectProps ks (serializeFields ks gs)) ++ "\x7d"
      rw [hX]

/-- Pointwise equality survives deleting the `securityHash` key. -/
theorem structEqFields_filter : ∀ {fs hs : List (String × JsVal)}, structEqFields fs hs →
    structEqFields (fs.filter (fun kv => kv.1 ≠ "securityHash"))
      (hs.filter (fun kv => kv.1 ≠ "securityHash"))
  | [], [], _ => trivial
  | [], _ :: _, h => h.elim
  | _ :: _, [], h => h.elim
  | (k, v) :: fs, (k2, w) :: hs, h => by
      obtain ⟨hk, hvw, hrest⟩ := h
      subst hk
      by_cases hkey : k = "securityHash"
      · simp only [List.filter_cons, hkey, ne_eq, not_true_eq_false, decide_False]
        exact structEqFields_filter hrest
      · simp only [List.filter_cons, ne_eq, hkey, not_false_iff, decide_True]
        exact ⟨rfl, hvw, structEqFields_filter hrest⟩

/-- `structEqElems` lists have equal lengths. -/
theorem structEqElems_length : ∀ {xs ys : List JsVal}, structEqElems xs ys →
    xs.length = ys.length
  | [], [], _ => rfl
  | [], _ :: _, h => h.elim
  | _ :: _, [], h => h.elim
  | _ :: _, _ :: _, h => by simp [structEqElems_length h.2]

/-- `wfFields` is membership-wise well-formedness. -/
theorem wfFields_iff : ∀ {fs : List (String × JsVal)},
    wfFields fs = true ↔ ∀ kv ∈ fs, wfVal kv.2 = true
  | [] => by simp [wfFields]
  | (k, v) :: fs => by
      simp only [wfFields, Bool.and_eq_true, @wfFields_iff fs, List.mem_cons]
      constructor
      · rintro ⟨h1, h2⟩ kv (rfl | hm)
        · exact h1
        · exact h2 kv hm
      · intro hall
        exact ⟨hall (k, v) (Or.inl rfl), fun kv hm => hall kv (Or.inr hm)⟩

/-- Deleting the `securityHash` key preserves well-formedness of an object. -/
theorem wfVal_jsDelete {fs : List (String × JsVal)} (h : wfVal (.obj fs) = true) :
    wfVal (.obj (fs.filter (fun kv => kv.1 ≠ "securityHash"))) = true := by
  have h2 : (distinctKeys (fs.map Prod.fst) && wfFields fs) = true := h
  rw [Bool.and_eq_true] at h2
  show (distinctKeys ((fs.filter (fun kv => kv.1 ≠ "securityHash")).map Prod.fst) &&
    wfFields (fs.filter (fun kv => kv.1 ≠ "securityHash"))) = true
  rw [Bool.and_eq_true]
  constructor
  · rw [distinctKeys_nodup]
    have hsub : ((fs.filter (fun kv => kv.1 ≠ "securityHash")).map Prod.fst).Sublist
        (fs.map Prod.fst) := (List.filter_sublist fs).map Prod.fst
    exact ((distinctKeys_nodup).mp h2.1).sublist hsub
  · rw [wfFields_iff]
    exact fun kv hm => (wfFields_iff.mp h2.2) kv (List.mem_of_mem_filter hm)

/-- Claim C7, amended: structural equality up to key insertion order at
every nesting level yields the same seal (for every digest function and
secret): the top-level key list is sorted, and the replacer-whitelist
serialization consults fields only by key lookup.  (The claim's converse —
distinct nested values give distinct canonical forms — fails; see the
counterexample.) -/
theorem seal_key_order_independent (hmac : String → String → String) (key : String)
    (p q : JsVal) (hp : wfVal p = true) (hq : wfVal q = true) (h : structEq p q) :
    generateSecurityHash hmac key p = generateSecurityHash hmac key q := by
  show hmac key (canonicalForm p) = hmac key (canonicalForm q)
  refine congrArg (hmac key) ?_
  cases p <;> cases q <;> first | exact absurd h id | skip
  case null.null => rfl
  case bool.bool b b2 =>
      have h2 : b = b2 := h
      rw [h2]
  case num.num n n2 =>
      have h2 : n = n2 := h
      rw [h2]
  case str.str s s2 =>
      have h2 : s = s2 := h
      rw [h2]
  case arr.arr xs ys =>
      have h2 : structEqElems xs ys := h
      have hlen : xs.length = ys.length := structEqElems_length h2
      show serializeVal (sortStrings ((List.range xs.length).map toString)) (.arr xs) =
        serializeVal (sortStrings ((List.range ys.length).map toString)) (.arr ys)
      rw [← hlen]
      exact serializeVal_structEq (.arr xs) (.arr ys) _ hp hq h2
  case obj.obj fs gs =>
      obtain ⟨hs, hfs, hperm⟩ := (h : ∃ hs2, structEqFields fs hs2 ∧ hs2.Perm gs)
      have hkeys : ((fs.filter (fun kv => kv.1 ≠ "securityHash")).map Prod.fst) =
          ((hs.filter (fun kv => kv.1 ≠ "securityHash")).map Prod.fst) :=
        structEqFields_keys (structEqFields_filter hfs)
      have hsort : sortStrings ((fs.filter (fun kv => kv.1 ≠ "securityHash")).map Prod.fst) =
          sortStrings ((gs.filter (fun kv => kv.1 ≠ "securityHash")).map Prod.fst) := by
        rw [hkeys]
        exact sortStrings_eq_of_perm ((hperm.filter _).map Prod.fst)
      have hwp := wfVal_jsDelete hp
      have hwq := wfVal_jsDelete hq
      have hstruct : structEq (.obj (fs.filter (fun kv => kv.1 ≠ "securityHash")))
          (.obj (gs.filter (fun kv => kv.1 ≠ "securityHash"))) :=
        ⟨hs.filter (fun kv => kv.1 ≠ "securityHash"), structEqFields_filter hfs,
          hperm.filter _⟩
      show serializeVal (sortStrings ((fs.filter (fun kv => kv.1 ≠ "securityHash")).map Prod.fst))
          (.obj (fs.filter (fun kv => kv.1 ≠ "securityHash"))) =
        serializeVal (sortStrings ((gs.filter (fun kv => kv.1 ≠ "securityHash")).map Prod.fst))
          (.obj (gs.filter (fun kv => kv.1 ≠ "securityHash")))
      rw [hsort]
      exact serializeVal_structEq _ _ _ hwp hwq hstruct

/-- Claim C7 fails in part: the canonical form is not a sorted-keys
serialization at every nesting level, and it is not injective on field
values — the payloads with nested `qty` 10 and 11 are distinct yet share
one canonical form, because the replacer array whitelists only top-level
key names and drops the nested `qty` binding. -/
theorem canonical_form_not_injective_counterexample :
    vplPayload 10 ≠ vplPayload 11 ∧
    canonicalForm (vplPayload 10) = canonicalForm (vplPayload 11) := by
  constructor
  · intro hcon
    simp [vplPayload] at hcon
  · rfl

/-- Witness for the amended C7: two concrete structurally-equal payloads
with keys inserted in different orders at both nesting levels produce the
same seal. -/
theorem seal_key_order_independent_witness :
    wfVal orderedPayloadA = true ∧ wfVal orderedPayloadB = true ∧
    structEq orderedPayloadA orderedPayloadB ∧
    generateSecurityHash concreteHmac "k" orderedPayloadA =
      generateSecurityHash concreteHmac "k" orderedPayloadB := by
  have hse : structEq orderedPayloadA orderedPayloadB := by
    refine ⟨[("a", .num 1), ("b", .obj [("a", .str "s"), ("x", .num 2)])], ?_, ?_⟩
    · refine ⟨rfl, rfl, rfl, ?_, trivial⟩
      exact ⟨[("x", .num 2), ("a", .str "s")], ⟨rfl, rfl, rfl, rfl, trivial⟩,
        List.Perm.swap _ _ _⟩
    · exact List.Perm.swap _ _ _
  exact ⟨rfl, rfl, hse,
    seal_key_order_independent concreteHmac "k" orderedPayloadA orderedPayloadB rfl rfl hse⟩

end Spec2Proof
